import Mathlib

/-!
Verification of the knowi-python-sdk validation and request-construction layer.

The development shallowly embeds the Python modules `knowipy/base_client.py`,
`knowipy/decorators.py` and (one helper, modelled from the specification)
`knowipy/utils.py`.  Python dictionaries are modelled as association lists of
string keys and `PyVal` values; raising an exception is modelled by returning
`Except.error` carrying a `PyError`; reaching the network transport is
modelled by returning `Except.ok` carrying the constructed request.
-/

namespace Knowipy

/-- A Python value as it occurs in the keyword-argument dictionaries handled
by the SDK: `None`, booleans, integers, strings, lists and dictionaries. -/
inductive PyVal where
  | none
  | bool (b : Bool)
  | int (n : Int)
  | str (s : String)
  | list (xs : List PyVal)
  | dict (kvs : List (String × PyVal))
deriving Repr

/-- A Python dictionary with string keys, as an association list. -/
abbrev Dict := List (String × PyVal)

/-- The Python exception classes raised by the embedded code:
`KnowiException` (the SDK domain error from `knowipy/errors.py`) and the
builtin `ValueError`, `TypeError` and `AttributeError`. -/
inductive PyError where
  | knowiException (msg : String)
  | valueError (msg : String)
  | typeError (msg : String)
  | attributeError (msg : String)
deriving Repr, DecidableEq

/-- Whether an embedded computation raised a Python exception. -/
def raises {α : Type} : Except PyError α → Bool
  | .error _ => true
  | .ok _ => false

/-- `d[k]` lookup: the value bound to the first entry with key `k`. -/
def dictGet : Dict → String → Option PyVal
  | [], _ => Option.none
  | (k, v) :: rest, key => if k = key then some v else dictGet rest key

/-- Python `key in d`. -/
def dictHasKey (d : Dict) (k : String) : Bool := (dictGet d k).isSome

/-- Replace the value bound to every entry with the given key. -/
def setExisting : Dict → String → PyVal → Dict
  | [], _, _ => []
  | (k, w) :: rest, key, v =>
      if k = key then (k, v) :: setExisting rest key v
      else (k, w) :: setExisting rest key v

/-- Python `d[k] = v`: replaces the value of an existing key in place
(keeping its position), otherwise appends the new entry at the end. -/
def dictSet (d : Dict) (key : String) (v : PyVal) : Dict :=
  if dictHasKey d key then setExisting d key v else d ++ [(key, v)]

/-- Python `kwargs.get(k)`: `None` when the key is absent. -/
def kwargsGet (kwargs : Dict) (k : String) : PyVal := (dictGet kwargs k).getD .none

/-- Python truthiness of a value: `None`, `False`, `0`, `""`, `[]` and
an empty dict are falsy, everything else is truthy. -/
def pyTruthy : PyVal → Bool
  | .none => false
  | .bool b => b
  | .int n => n != 0
  | .str s => s != ""
  | .list xs => !xs.isEmpty
  | .dict d => !d.isEmpty

/-- Whether a value is Python `None`. -/
def PyVal.isNone : PyVal → Bool
  | .none => true
  | _ => false

/-- Whether a value is a Python list (`isinstance(v, list)`). -/
def PyVal.isList : PyVal → Bool
  | .list _ => true
  | _ => false

/-- Python `v == n` for an integer literal `n`: booleans compare by their
numeric value (`True == 1`, `False == 0`); values of any other class are
never equal to an integer. -/
def pyEqInt (v : PyVal) (n : Int) : Bool :=
  match v with
  | .int m => m == n
  | .bool b => (if b then (1 : Int) else 0) == n
  | _ => false

mutual

/-- Python builtin `str()` of a value. -/
def pyStr : PyVal → String
  | .none => "None"
  | .bool b => if b then "True" else "False"
  | .int n => toString n
  | .str s => s
  | .list xs => "[" ++ pyReprList xs ++ "]"
  | .dict kvs => "\x7b" ++ pyReprDict kvs ++ "\x7d"

/-- Python builtin `repr()` of a value (used by `str()` on container
elements); it differs from `str()` only by quoting strings. -/
def pyRepr : PyVal → String
  | .none => "None"
  | .bool b => if b then "True" else "False"
  | .int n => toString n
  | .str s => "\x27" ++ s ++ "\x27"
  | .list xs => "[" ++ pyReprList xs ++ "]"
  | .dict kvs => "\x7b" ++ pyReprDict kvs ++ "\x7d"

/-- Comma-separated `repr`s of the elements of a list. -/
def pyReprList : List PyVal → String
  | [] => ""
  | [x] => pyRepr x
  | x :: xs => pyRepr x ++ ", " ++ pyReprList xs

/-- Comma-separated `key: value` pairs of a dict body. -/
def pyReprDict : List (String × PyVal) → String
  | [] => ""
  | [(k, v)] => "\x27" ++ k ++ "\x27: " ++ pyRepr v
  | (k, v) :: rest => "\x27" ++ k ++ "\x27: " ++ pyRepr v ++ ", " ++ pyReprDict rest

end

/-- Python `s.startswith(p)`. -/
def startswith (s p : String) : Bool := p.data.isPrefixOf s.data

/-- Python `s.lower()` (ASCII model, matching `Char.toLower`). -/
def lowerStr (s : String) : String := ⟨s.data.map Char.toLower⟩

/-- Python `s.capitalize()`: first character upper-cased, the rest
lower-cased (ASCII model). -/
def capitalize (s : String) : String :=
  match s.data with
  | [] => ""
  | c :: cs => ⟨c.toUpper :: cs.map Char.toLower⟩

/-! ## `knowipy/utils.py` (module absent from the sources) -/

/-- Modelled from the spec: `cleanNullTerms` from `knowipy/utils.py`, a module
imported by `base_client.py` but missing from the available sources.  The spec
says: "Before sending, any explicitly-`null`-valued keys in the `data`/`json`
payload are removed (... omitted fields are not sent at all, while an explicit
empty-list/empty-string is preserved)". -/
def cleanNullTerms (d : Dict) : Dict := d.filter (fun kv => !(kv.2.isNone))

/-! ## `knowipy/base_client.py` -/

/-- The state of a `BaseClient` after construction (`BaseClient.__init__`).
The `requests.Session` transport object and the bearer header installed by
`auth()` are external collaborators and are not part of the model. -/
structure BaseClient where
  host : String
  clientId : Option String
  clientSecret : Option String
  ssoCustomerToken : Option String
  flag : String
deriving Repr

/-- Python truthiness of an optional string argument (`None` and `""` are
falsy). -/
def truthyOptStr : Option String → Bool
  | some s => s != ""
  | Option.none => false

/-- `BaseClient.__init__`: normalizes the host, stores the credentials and
raises `KnowiException` for an unknown flag or for credentials missing for
the selected mode.  In management mode a successful construction additionally
performs the network login `auth()`, which is outside the model. -/
def BaseClient.init (host : String) (clientId clientSecret customerToken : Option String)
    (flag : String) : Except PyError BaseClient :=
  let host := if host.endsWith "/" then host.dropRight 1 else host
  if !(flag == "mgmt" || flag == "sso") then
    .error (.knowiException "invalid flag. supported flag inputs are (mgmt or sso)")
  else if flag == "mgmt" && !(truthyOptStr clientId && truthyOptStr clientSecret) then
    .error (.knowiException "client id/secret needed to use management api")
  else if flag == "sso" && !(truthyOptStr customerToken) then
    .error (.knowiException "sso customer token needed to use single sign on api")
  else
    .ok ⟨host, clientId, clientSecret, customerToken, flag⟩

/-- `BaseClient._get_url`: joins the host and the API method, inserting the
management prefix `/api/1.0` in management mode. -/
def BaseClient.get_url (c : BaseClient) (apiMethod : String) : String :=
  let mgmtUrl := c.host ++ "/api/1.0" ++ apiMethod
  if c.flag == "mgmt" then mgmtUrl else c.host ++ apiMethod

/-- The request handed to `BaseClient._request` (the transport layer, an
external collaborator): HTTP verb, absolute URL and the `requestArgs`
dictionary with its `data`, `files`, `params` and `json` entries.  The Python
`None` default of each payload argument is modelled by the empty dict, which
has the same truthiness. -/
structure Request where
  httpVerb : String
  apiUrl : String
  data : Dict
  files : Dict
  params : Dict
  json : Dict
deriving Repr

/-- `BaseClient.api_call`: checks the SSO/management mode guards, resolves
the URL, strips null-valued keys from the `data` payload (or, when `data` is
falsy, from the `json` payload) and hands the request to the transport.
`Except.error` models an exception raised before any request is dispatched;
`Except.ok` carries the request handed to `_request`. -/
def BaseClient.api_call (c : BaseClient) (apiMethod httpVerb : String)
    (files data params json : Dict) : Except PyError Request :=
  if startswith apiMethod "/sso/" && c.flag != "sso" then
    .error (.knowiException "invalid method with this flag, use flag sso")
  else if !(startswith apiMethod "/sso") && c.flag == "sso" then
    .error (.knowiException "invalid method with this flag, use flag mgmt")
  else
    let apiUrl := c.get_url apiMethod
    let dj : Dict × Dict :=
      if !data.isEmpty then (cleanNullTerms data, json)
      else if !json.isEmpty then (data, cleanNullTerms json)
      else (data, json)
    .ok ⟨httpVerb, apiUrl, dj.1, files, params, dj.2⟩

/-! ## `knowipy/decorators.py` -/

/-- `ACCESS_LEVEL = (1, 2)`: asset permission levels (1 = edit, 2 = view). -/
def ACCESS_LEVEL : List Int := [1, 2]

/-- `SHARE_TO_USERS`. -/
def SHARE_TO_USERS : List String := ["type", "name", "access_level"]

/-- `SHARE_TO_GROUPS`. -/
def SHARE_TO_GROUPS : List String := ["type", "id", "access_level"]

/-- Python `v in ACCESS_LEVEL`, i.e. `v in (1, 2)`, with Python equality
(`True == 1` holds, so a boolean `True` is accepted). -/
def inAccessLevel (v : PyVal) : Bool := pyEqInt v 1 || pyEqInt v 2

/-- The body of the `for` loop of `validateShareParams` applied to one
share-target record: requires a `type` key, capitalizes it in place, then
checks the keys and the access level required for `Users` and `Groups`
targets.  A non-dict record or a non-string `type` value makes the Python
code crash (`TypeError` / `AttributeError`). -/
def validateShareTarget : PyVal → Except PyError PyVal
  | .dict d =>
    if !(dictHasKey d "type") then
      .error (.knowiException "missing attribute type in shareProperty")
    else
      match dictGet d "type" with
      | some (.str t) =>
        let d := dictSet d "type" (.str (capitalize t))
        if capitalize t == "Users" then
          if !(["access_level", "name"].all fun k => dictHasKey d k) then
            .error (.knowiException "invalid/missing user property key")
          else if !(inAccessLevel ((dictGet d "access_level").getD .none)) then
            .error (.knowiException "invalid/missing property. access_level must be 1 or 2")
          else .ok (.dict d)
        else if capitalize t == "Groups" then
          if !(["access_level", "id"].all fun k => dictHasKey d k) then
            .error (.knowiException "invalid/missing group property")
          else if !(inAccessLevel ((dictGet d "access_level").getD .none)) then
            .error (.valueError "missing/invalid property. access_level must be 1 or 2")
          else .ok (.dict d)
        else .error (.valueError "Invalid share type. allowed values: (users, groups)")
      | _ => .error (.attributeError "type value has no attribute capitalize")
  | _ => .error (.typeError "share target is not a dict")

/-- The `for i in shareProperties` loop of `validateShareParams`; returns the
records with their `type` fields normalized, or the first exception. -/
def validateShareList : List PyVal → Except PyError (List PyVal)
  | [] => .ok []
  | i :: rest => do
      let i' ← validateShareTarget i
      let rest' ← validateShareList rest
      .ok (i' :: rest')

/-- The `validateShareParams` decorator wrapper: when `shareProperty` or
`userGroups` is truthy, the first truthy of the two is validated record by
record; otherwise no validation runs and the wrapped function is called
directly (`Except.ok []`).  Iteration over a truthy non-list value is not
reached by any claim and is modelled as a crash. -/
def validateShareParams (shareProperty userGroups : Option PyVal) :
    Except PyError (List PyVal) :=
  let sp := shareProperty.getD .none
  let ug := userGroups.getD .none
  if pyTruthy sp || pyTruthy ug then
    match (if pyTruthy sp then sp else ug) with
    | .list targets => validateShareList targets
    | _ => .error (.typeError "shareProperties is not a list of dicts")
  else .ok []

/-- `OPERATOR_NAME` from `_validateContentFilters`. -/
def OPERATOR_NAME : List String :=
  ["equals", "not equals", "greater than", "greater than or equals", "less than",
   "less than or equals", "contains", "does not contain"]

/-- `OPERATOR_VALUE` from `_validateContentFilters`. -/
def OPERATOR_VALUE : List String := ["=", "!=", ">", ">=", "<", "<=", "like", "not like"]

/-- `CONTENT_FILTER_FIELDS` from `_validateContentFilters`. -/
def CONTENT_FILTER_FIELDS : List String := ["fieldName", "values", "operator"]

/-- Python `i.get("operator") in chain(OPERATOR_NAME, OPERATOR_VALUE)`: only
a string equal to one of the listed operators is a member (Python `in` uses
`==`, and no non-string value equals any of these strings). -/
def operatorInChain (v : Option PyVal) : Bool :=
  match v with
  | some (.str op) => (OPERATOR_NAME ++ OPERATOR_VALUE).contains op
  | _ => false

/-- The `values` coercion step of the `_validateContentFilters` loop body:
`filterValue = i['values']; if not isinstance(i['values'], list):
i['values'] = [str(filterValue)]`. -/
def coerceValues (d : Dict) : Dict :=
  match dictGet d "values" with
  | some (.list _) => d
  | _ => dictSet d "values" (.list [.str (pyStr ((dictGet d "values").getD .none))])

/-- The body of the `for` loop of `_validateContentFilters` applied to one
clause: if all of `CONTENT_FILTER_FIELDS` are keys of the clause, a non-list
`values` entry is replaced in place by a one-element list holding its string
form, and the `operator` entry must belong to the accepted operator sets;
otherwise `KnowiException` is raised.  A non-dict clause cannot carry the
required fields and also raises (the exact exception class for non-dict,
non-iterable clauses differs in Python; no claim exercises that case). -/
def validateContentFilterClause : PyVal → Except PyError PyVal
  | .dict d =>
    if CONTENT_FILTER_FIELDS.all (fun f => dictHasKey d f) then
      if !(operatorInChain (dictGet (coerceValues d) "operator")) then
        .error (.knowiException "invalid operator value in contentFilter")
      else .ok (.dict (coerceValues d))
    else .error (.knowiException "missing/invalid contentFilter parameter")
  | _ => .error (.knowiException "missing/invalid contentFilter parameter")

/-- The `for i in contentFilter` loop of `_validateContentFilters`. -/
def validateContentFilterList : List PyVal → Except PyError (List PyVal)
  | [] => .ok []
  | i :: rest => do
      let i' ← validateContentFilterClause i
      let rest' ← validateContentFilterList rest
      .ok (i' :: rest')

/-- `_validateContentFilters`: validates each clause of a truthy list input
and returns the (coerced) input; a falsy or non-list input is returned
unchanged without validation. -/
def validateContentFilters (contentFilter : PyVal) : Except PyError PyVal :=
  if pyTruthy contentFilter && contentFilter.isList then
    match contentFilter with
    | .list clauses => (validateContentFilterList clauses).map .list
    | _ => .ok contentFilter
  else .ok contentFilter

/-- One record of the `groups` loop of `validateUserParams`: requires the
`access_level` and `id` keys and an access level of 1 or 2, raising
`KnowiException` otherwise.  Key membership in a non-dict record is not
reached by any claim and is modelled as a crash. -/
def validateUserGroupRecord : PyVal → Except PyError Unit
  | .dict d =>
    if !(["access_level", "id"].all fun k => dictHasKey d k) then
      .error (.knowiException "missing/invalid properties. Required keys are access_level id")
    else if !(inAccessLevel ((dictGet d "access_level").getD .none)) then
      .error (.knowiException "access_level must be 1 or 2")
    else .ok ()
  | _ => .error (.typeError "group record is not a dict")

/-- The `for` loop over `groups`. -/
def validateUserGroupList : List PyVal → Except PyError Unit
  | [] => .ok ()
  | i :: rest => do
      validateUserGroupRecord i
      validateUserGroupList rest

/-- One record of the `userInviteJson.userGroups` loop: every key of the
record must be one of `access_level` and `id` (`all(s in [...] for s in
list(i))`), raising `ValueError` otherwise. -/
def validateInviteGroupRecord (i : PyVal) : Except PyError Unit :=
  match i with
  | .dict d =>
    if d.all (fun kv => kv.1 == "access_level" || kv.1 == "id") then .ok ()
    else .error (.valueError "missing/invalid userGroups property")
  | _ => .error (.valueError "missing/invalid userGroups property")

/-- The `for` loop over `userInviteJson.userGroups`. -/
def validateInviteGroupList : List PyVal → Except PyError Unit
  | [] => .ok ()
  | i :: rest => do
      validateInviteGroupRecord i
      validateInviteGroupList rest

/-- One record of the `autoShareTo` loop: requires an `id` key. -/
def validateAutoShareRecord (i : PyVal) : Except PyError Unit :=
  match i with
  | .dict d =>
    if !(dictHasKey d "id") then .error (.knowiException "missing id field")
    else .ok ()
  | _ => .error (.typeError "autoShare record is not a dict")

/-- The `for` loop over `autoShareTo`. -/
def validateAutoShareList : List PyVal → Except PyError Unit
  | [] => .ok ()
  | i :: rest => do
      validateAutoShareRecord i
      validateAutoShareList rest

/-- Sequencing of two embedded statements: a raised exception in the first
aborts the second, mirroring Python control flow. -/
def seqE {α : Type} (a : Except PyError Unit) (b : Except PyError α) : Except PyError α :=
  match a with
  | .error e => .error e
  | .ok _ => b

/-- The `timezone` block of `validateUserParams`: a truthy timezone must be
a string drawn from `pytz.all_timezones` (passed in as `allTimezones`, an
external data set). -/
def checkTimezone (allTimezones : List String) (tz : PyVal) : Except PyError Unit :=
  if pyTruthy tz then
    match tz with
    | .str s =>
        if !(allTimezones.contains s) then .error (.valueError "Invalid timezone")
        else .ok ()
    | _ => .error (.typeError "expected type is string")
  else .ok ()

/-- The `twoFA` block of `validateUserParams`: the block only runs when
`kwargs.get('twoFA')` is truthy; a truthy non-boolean raises `TypeError`,
and a falsy `phone` then raises `ValueError`. -/
def checkTwoFA (twoFA phone : PyVal) : Except PyError Unit :=
  if pyTruthy twoFA then
    match twoFA with
    | .bool _ =>
        if !(pyTruthy phone) then .error (.valueError "phone is needed with twoFactorAuth")
        else .ok ()
    | _ => .error (.typeError "twoFA type must be bool")
  else .ok ()

/-- The `userInviteJson` block of `validateUserParams`. -/
def checkUserInviteJson (uij : PyVal) : Except PyError Unit :=
  if pyTruthy uij then
    match uij with
    | .dict userProps =>
      match (dictGet userProps "userGroups").getD (.list []) with
      | .list gs => validateInviteGroupList gs
      | _ => .error (.typeError "userGroups is not iterable")
    | _ => .error (.attributeError "userInviteJson has no attribute get")
  else .ok ()

/-- The `contentFilters`/`contentFilter` block of `validateUserParams`:
`kwargs.get('contentFilter') or kwargs.get('contentFilters')` is delegated
to `_validateContentFilters`, whose return value is discarded. -/
def checkUserContentFilters (contentFilters contentFilter : PyVal) : Except PyError Unit :=
  if pyTruthy contentFilters || pyTruthy contentFilter then
    match validateContentFilters (if pyTruthy contentFilter then contentFilter else contentFilters) with
    | .error e => .error e
    | .ok _ => .ok ()
  else .ok ()

/-- The `groups` block of `validateUserParams`. -/
def checkGroups (groups : PyVal) : Except PyError Unit :=
  if pyTruthy groups then
    match groups with
    | .list userGroups => validateUserGroupList userGroups
    | _ => .error (.typeError "groups must be a array of dicts")
  else .ok ()

/-- The `autoShareTo` block of `validateUserParams`: a single dict is
wrapped into a one-element list, a list is taken as is, anything else
raises `TypeError`. -/
def checkAutoShareTo (ast : PyVal) : Except PyError Unit :=
  if pyTruthy ast then
    match ast with
    | .dict d => validateAutoShareList [.dict d]
    | .list l => validateAutoShareList l
    | _ => .error (.typeError "autoShareTo must be dict of array of dict")
  else .ok ()

/-- The `validateUserParams` decorator wrapper: the sequential rule blocks
for `timezone`, `twoFA`/`phone`, the `phone` string coercion,
`userInviteJson`, `contentFilters`/`contentFilter`, `groups` and
`autoShareTo`, in source order.  On success the possibly-updated keyword
dictionary is returned (the in-place coercion performed inside
`_validateContentFilters` on the filter clauses is not reflected back into
`kwargs`, exactly as in the source, which discards that call result). -/
def validateUserParams (allTimezones : List String) (kwargs : Dict) :
    Except PyError Dict :=
  seqE (checkTimezone allTimezones (kwargsGet kwargs "timezone")) <|
  seqE (checkTwoFA (kwargsGet kwargs "twoFA") (kwargsGet kwargs "phone")) <|
  let kwargs :=
    if pyTruthy (kwargsGet kwargs "phone") then
      dictSet kwargs "phone" (.str (pyStr (kwargsGet kwargs "phone")))
    else kwargs
  seqE (checkUserInviteJson (kwargsGet kwargs "userInviteJson")) <|
  seqE (checkUserContentFilters (kwargsGet kwargs "contentFilters") (kwargsGet kwargs "contentFilter")) <|
  seqE (checkGroups (kwargsGet kwargs "groups")) <|
  seqE (checkAutoShareTo (kwargsGet kwargs "autoShareTo")) <|
  .ok kwargs

/-- `isinstance("direct", bool)` as written in `validateQueryParams`: the
first argument is the string literal `"direct"`, not the bound value, and a
string is never an instance of `bool`, so the test is the constant false. -/
def isinstanceDirectLiteralBool : Bool := false

/-- The `validateQueryParams` decorator wrapper: dereferences
`kwargs.get("queryProperty")` without a presence check (an absent or `None`
argument therefore crashes with `AttributeError`), requires a truthy
`categories` entry to be a list, and applies the `direct`-flag check, whose
condition `not isinstance("direct", bool)` is constantly true. -/
def validateQueryParams (queryProperty : Option PyVal) : Except PyError Unit :=
  match queryProperty.getD .none with
  | .dict qp =>
    if pyTruthy ((dictGet qp "categories").getD .none) &&
        !(((dictGet qp "categories").getD .none).isList) then
      .error (.knowiException "invalid categories type should be list of int")
    else if pyTruthy ((dictGet qp "direct").getD .none) && !isinstanceDirectLiteralBool then
      .error (.knowiException "invalid direct type, should be a bool")
    else .ok ()
  | _ => .error (.attributeError "queryProperty object has no attribute get")

/-! ## `knowipy/client.py` (the facade method needed by the claims) -/

/-- `Knowi.query_create`: the `validateQueryParams` wrapper runs first; the
body then shapes `queryProperty` into the `properties`/`runNow`/`drafted`
entries of the JSON payload and calls `api_call('/queries', 'POST',
json=kwargs)`.  The wrapper guarantees `queryProperty` is a dict whenever the
body runs. -/
def query_create (c : BaseClient) (datasourceId queryName : PyVal)
    (queryProperty : Option PyVal) (kwargs : Dict) : Except PyError Request :=
  match validateQueryParams queryProperty with
  | .error err => .error err
  | .ok _ =>
    match queryProperty.getD .none with
    | .dict qp =>
      let props : Dict :=
        [("c9QLFilter", (dictGet qp "c9QLFilter").getD (.str "select *")),
         ("categories", (dictGet qp "categories").getD .none),
         ("datasourceId", datasourceId),
         ("description", (dictGet qp "description").getD .none),
         ("direct", (dictGet qp "direct").getD (.bool false)),
         ("dsName", (dictGet qp "dsName").getD .none),
         ("entityName", queryName),
         ("queryStr", .str (pyStr ((dictGet qp "queryStr").getD .none))),
         ("triggered", (dictGet qp "triggered").getD .none),
         ("overrideVals", (dictGet qp "overrideVals").getD (.str "All")),
         ("c9ExportDataset", (dictGet qp "c9ExportDataset").getD .none)]
      let kwargs := dictSet kwargs "properties" (.dict props)
      let kwargs := dictSet kwargs "runNow" ((dictGet qp "runNow").getD (.bool true))
      let kwargs := dictSet kwargs "drafted" ((dictGet qp "drafted").getD .none)
      c.api_call "/queries" "POST" [] [] [] kwargs
    | _ => .error (.attributeError "queryProperty object has no attribute get")

/-! ## Supporting lemmas -/

lemma dictGet_setExisting_ne (d : Dict) (k k' : String) (v : PyVal) (h : k' ≠ k) :
    dictGet (setExisting d k v) k' = dictGet d k' := by
  induction d with
  | nil => rfl
  | cons kv rest ih =>
    obtain ⟨a, b⟩ := kv
    by_cases hak : a = k
    · subst hak
      have hk' : ¬ a = k' := fun hc => h hc.symm
      simp [setExisting, dictGet, hk', ih]
    · by_cases hak' : a = k'
      · simp [setExisting, dictGet, hak, hak', h]
      · simp [setExisting, dictGet, hak, hak', ih]

lemma dictGet_append_ne (d : Dict) (k k' : String) (v : PyVal) (h : k' ≠ k) :
    dictGet (d ++ [(k, v)]) k' = dictGet d k' := by
  induction d with
  | nil => simp [dictGet, Ne.symm h]
  | cons kv rest ih =>
    by_cases hk : kv.1 = k'
    · simp [dictGet, hk]
    · simp [dictGet, hk, ih]

lemma dictGet_dictSet_ne (d : Dict) (k k' : String) (v : PyVal) (h : k' ≠ k) :
    dictGet (dictSet d k v) k' = dictGet d k' := by
  unfold dictSet
  split
  · exact dictGet_setExisting_ne d k k' v h
  · exact dictGet_append_ne d k k' v h

lemma dictGet_setExisting_self (d : Dict) (k : String) (v : PyVal)
    (h : dictHasKey d k = true) :
    dictGet (setExisting d k v) k = some v := by
  induction d with
  | nil => simp [dictHasKey, dictGet] at h
  | cons kv rest ih =>
    obtain ⟨a, b⟩ := kv
    by_cases hak : a = k
    · subst hak
      simp [setExisting, dictGet]
    · have h' : dictHasKey rest k = true := by
        simpa [dictHasKey, dictGet, hak] using h
      simp [setExisting, dictGet, hak, ih h']

lemma dictGet_append_self (d : Dict) (k : String) (v : PyVal)
    (h : dictHasKey d k = false) :
    dictGet (d ++ [(k, v)]) k = some v := by
  induction d with
  | nil => simp [dictGet]
  | cons kv rest ih =>
    by_cases hak : kv.1 = k
    · simp [dictHasKey, dictGet, hak] at h
    · have h' : dictHasKey rest k = false := by
        simpa [dictHasKey, dictGet, hak] using h
      simp [dictGet, hak, ih h']

lemma dictGet_dictSet_self (d : Dict) (k : String) (v : PyVal) :
    dictGet (dictSet d k v) k = some v := by
  unfold dictSet
  split
  · next h => exact dictGet_setExisting_self d k v h
  · next h => exact dictGet_append_self d k v (Bool.not_eq_true _ |>.mp h)

lemma mem_cleanNullTerms (d : Dict) (k : String) (v : PyVal) :
    (k, v) ∈ cleanNullTerms d ↔ (k, v) ∈ d ∧ v.isNone = false := by
  simp [cleanNullTerms, List.mem_filter]

lemma shareList_ok_spec (ts : List PyVal) (out : List PyVal)
    (h : validateShareList ts = .ok out) :
    out.length = ts.length ∧ ∀ p ∈ ts.zip out, validateShareTarget p.1 = .ok p.2 := by
  induction ts generalizing out with
  | nil =>
    simp only [validateShareList] at h
    cases h
    simp
  | cons i rest ih =>
    simp only [validateShareList] at h
    cases hv : validateShareTarget i with
    | error e => rw [hv] at h; simp [Bind.bind, Except.bind] at h
    | ok i' =>
      rw [hv] at h
      cases hr : validateShareList rest with
      | error e => rw [hr] at h; simp [Bind.bind, Except.bind] at h
      | ok rest' =>
        rw [hr] at h
        simp only [Bind.bind, Except.bind] at h
        cases h
        obtain ⟨ih1, ih2⟩ := ih rest' hr
        refine ⟨by simp [ih1], ?_⟩
        intro p hp
        rcases List.mem_cons.mp (by simpa [List.zip] using hp) with h1 | h2
        · subst h1; exact hv
        · exact ih2 p h2

lemma shareList_err_of_mem (ts : List PyVal) (i : PyVal) (hmem : i ∈ ts)
    (hi : raises (validateShareTarget i) = true) :
    raises (validateShareList ts) = true := by
  induction ts with
  | nil => cases hmem
  | cons j rest ih =>
    simp only [validateShareList]
    rcases List.mem_cons.mp hmem with h1 | h2
    · subst h1
      cases hv : validateShareTarget i with
      | error e => simp [Bind.bind, Except.bind, raises]
      | ok i' => rw [hv] at hi; simp [raises] at hi
    · cases hv : validateShareTarget j with
      | error e => simp [Bind.bind, Except.bind, raises]
      | ok j' =>
        cases hr : validateShareList rest with
        | error e => simp [Bind.bind, Except.bind, raises]
        | ok rest' =>
          have := ih h2
          rw [hr] at this
          simp [raises] at this

lemma filterList_ok_spec (cs : List PyVal) (out : List PyVal)
    (h : validateContentFilterList cs = .ok out) :
    out.length = cs.length ∧ ∀ p ∈ cs.zip out, validateContentFilterClause p.1 = .ok p.2 := by
  induction cs generalizing out with
  | nil =>
    simp only [validateContentFilterList] at h
    cases h
    simp
  | cons i rest ih =>
    simp only [validateContentFilterList] at h
    cases hv : validateContentFilterClause i with
    | error e => rw [hv] at h; simp [Bind.bind, Except.bind] at h
    | ok i' =>
      rw [hv] at h
      cases hr : validateContentFilterList rest with
      | error e => rw [hr] at h; simp [Bind.bind, Except.bind] at h
      | ok rest' =>
        rw [hr] at h
        simp only [Bind.bind, Except.bind] at h
        cases h
        obtain ⟨ih1, ih2⟩ := ih rest' hr
        refine ⟨by simp [ih1], ?_⟩
        intro p hp
        rcases List.mem_cons.mp (by simpa [List.zip] using hp) with h1 | h2
        · subst h1; exact hv
        · exact ih2 p h2

lemma filterList_err_of_mem (cs : List PyVal) (i : PyVal) (hmem : i ∈ cs)
    (hi : raises (validateContentFilterClause i) = true) :
    raises (validateContentFilterList cs) = true := by
  induction cs with
  | nil => cases hmem
  | cons j rest ih =>
    simp only [validateContentFilterList]
    rcases List.mem_cons.mp hmem with h1 | h2
    · subst h1
      cases hv : validateContentFilterClause i with
      | error e => simp [Bind.bind, Except.bind, raises]
      | ok i' => rw [hv] at hi; simp [raises] at hi
    · cases hv : validateContentFilterClause j with
      | error e => simp [Bind.bind, Except.bind, raises]
      | ok j' =>
        cases hr : validateContentFilterList rest with
        | error e => simp [Bind.bind, Except.bind, raises]
        | ok rest' =>
          have := ih h2
          rw [hr] at this
          simp [raises] at this

/-- C9: calling `query_create` without a `queryProperty` keyword (its default
is `None`) makes the `validateQueryParams` wrapper dereference `None` with
`.get`, raising `AttributeError` — a crash, not a validation error — before
any validation rule runs and before any request is constructed. -/
theorem query_create_missing_queryProperty_crashes
    (c : BaseClient) (dsId qn : PyVal) (kwargs : Dict) :
    query_create c dsId qn Option.none kwargs
      = .error (.attributeError "queryProperty object has no attribute get") := rfl

/-- C10: when both `shareProperty` and `userGroups` are absent, `None` or an
empty list, `validateShareParams` runs no per-target check and lets the
wrapped operation proceed (`Except.ok []`); in particular an empty share
list is never rejected. -/
theorem validateShareParams_skips_falsy (sp ug : Option PyVal)
    (hsp : sp = Option.none ∨ sp = some PyVal.none ∨ sp = some (PyVal.list []))
    (hug : ug = Option.none ∨ ug = some PyVal.none ∨ ug = some (PyVal.list [])) :
    validateShareParams sp ug = .ok [] := by
  rcases hsp with rfl | rfl | rfl <;> rcases hug with rfl | rfl | rfl <;> rfl

/-- Witness for C10 at `shareProperty = []`, `userGroups` absent. -/
theorem validateShareParams_skips_falsy_witness :
    validateShareParams (some (PyVal.list [])) Option.none = .ok [] :=
  validateShareParams_skips_falsy (some (PyVal.list [])) Option.none
    (Or.inr (Or.inr rfl)) (Or.inl rfl)

/-- C8 counterexample: the claim says the `direct`-flag check can never
reject, but a queryProperty with `direct = True` is rejected (while the same
record without `direct` passes), so validation does fail on account of the
`direct` flag. -/
theorem validateQueryParams_direct_counterexample :
    validateQueryParams (some (.dict [])) = .ok () ∧
    validateQueryParams (some (.dict [("direct", PyVal.bool true)]))
      = .error (.knowiException "invalid direct type, should be a bool") :=
  ⟨rfl, rfl⟩

/-- C8 (amended): the `direct` check inspects the literal string `"direct"`
instead of the bound value, and `not isinstance("direct", bool)` is
constantly true; hence for any queryProperty whose `categories` check does
not fail, validation fails exactly when the `direct` entry is truthy
(regardless of its type — even `direct = True` is rejected), and the bound
value's type is never examined. -/
theorem validateQueryParams_direct_rejects_truthy (qp : Dict)
    (hcat : pyTruthy ((dictGet qp "categories").getD .none) = false ∨
      ∃ xs, dictGet qp "categories" = some (.list xs)) :
    raises (validateQueryParams (some (.dict qp))) = true ↔
      pyTruthy ((dictGet qp "direct").getD .none) = true := by
  rcases hcat with h | ⟨xs, h⟩ <;>
    cases hdir : pyTruthy ((dictGet qp "direct").getD .none) <;>
      simp [validateQueryParams, raises, isinstanceDirectLiteralBool, h, hdir, PyVal.isList]

/-- Witness for C8 (amended) at a queryProperty with a truthy non-boolean
`direct` entry and no `categories` entry. -/
theorem validateQueryParams_direct_rejects_truthy_witness :
    raises (validateQueryParams (some (.dict [("direct", PyVal.int 5)]))) = true ↔
      pyTruthy ((dictGet [("direct", PyVal.int 5)] "direct").getD .none) = true :=
  validateQueryParams_direct_rejects_truthy [("direct", PyVal.int 5)] (Or.inl rfl)

/-- C6 counterexample: the claim says a present non-boolean `twoFA` raises
`TypeError`, but the block only runs when the value is truthy: with
`twoFA = 0` (present, not a boolean, falsy) `validateUserParams` succeeds. -/
theorem validateUserParams_twoFA_counterexample :
    validateUserParams [] [("twoFA", PyVal.int 0)] = .ok [("twoFA", PyVal.int 0)] := rfl

/-- C6 (amended): for a call with no truthy `timezone` (so no earlier rule
fires) and a truthy `twoFA` value: a non-boolean value raises `TypeError`, a
`True` value with a falsy `phone` raises `ValueError`, and the documented
passing scenario `twoFA=True, phone=1234567890` succeeds with `phone`
coerced to its string form.  Falsy `twoFA` values (`False`, `0`, `""`,
`None`) skip the checks entirely. -/
theorem validateUserParams_twoFA_truthy
    (tzs : List String) (kwargs : Dict) (v : PyVal)
    (htz : pyTruthy (kwargsGet kwargs "timezone") = false)
    (hv : dictGet kwargs "twoFA" = some v)
    (htr : pyTruthy v = true) :
    ((∀ b, v ≠ PyVal.bool b) →
      validateUserParams tzs kwargs = .error (.typeError "twoFA type must be bool")) ∧
    (v = PyVal.bool true → pyTruthy (kwargsGet kwargs "phone") = false →
      validateUserParams tzs kwargs
        = .error (.valueError "phone is needed with twoFactorAuth")) ∧
    validateUserParams tzs [("twoFA", PyVal.bool true), ("phone", PyVal.int 1234567890)]
      = .ok [("twoFA", PyVal.bool true), ("phone", PyVal.str "1234567890")] := by
  have hkv : kwargsGet kwargs "twoFA" = v := by simp [kwargsGet, hv]
  refine ⟨?_, ?_, rfl⟩
  · intro hnb
    have hBlock : checkTwoFA (kwargsGet kwargs "twoFA") (kwargsGet kwargs "phone")
        = .error (.typeError "twoFA type must be bool") := by
      rw [hkv]
      cases v with
      | bool b => exact absurd rfl (hnb b)
      | none => simp [pyTruthy] at htr
      | int n => simp [checkTwoFA, htr]
      | str s => simp [checkTwoFA, htr]
      | list xs => simp [checkTwoFA, htr]
      | dict d => simp [checkTwoFA, htr]
    simp [validateUserParams, checkTimezone, htz, seqE, hBlock]
  · intro hb hph
    subst hb
    have hBlock : checkTwoFA (kwargsGet kwargs "twoFA") (kwargsGet kwargs "phone")
        = .error (.valueError "phone is needed with twoFactorAuth") := by
      rw [hkv]
      simp [checkTwoFA, htr, hph]
    simp [validateUserParams, checkTimezone, htz, seqE, hBlock]

/-- Witness for C6 (amended) at `twoFA = "yes"` (truthy, not a boolean). -/
theorem validateUserParams_twoFA_truthy_witness :
    ((∀ b, PyVal.str "yes" ≠ PyVal.bool b) →
      validateUserParams [] [("twoFA", PyVal.str "yes")]
        = .error (.typeError "twoFA type must be bool")) ∧
    (PyVal.str "yes" = PyVal.bool true →
      pyTruthy (kwargsGet [("twoFA", PyVal.str "yes")] "phone") = false →
      validateUserParams [] [("twoFA", PyVal.str "yes")]
        = .error (.valueError "phone is needed with twoFactorAuth")) ∧
    validateUserParams [] [("twoFA", PyVal.bool true), ("phone", PyVal.int 1234567890)]
      = .ok [("twoFA", PyVal.bool true), ("phone", PyVal.str "1234567890")] :=
  validateUserParams_twoFA_truthy [] [("twoFA", PyVal.str "yes")] (PyVal.str "yes")
    rfl rfl rfl

/-- C2 counterexample: the two guard clauses of `api_call` test different
prefixes (`"/sso/"` and `"/sso"`).  The path `"/ssoExtra"` does not begin
with the SSO prefix `"/sso/"` and the client flag is `"sso"`, so the claim
says the call raises before dispatch; instead `api_call` dispatches the
request. -/
theorem api_call_sso_guard_counterexample :
    startswith "/ssoExtra" "/sso/" = false ∧
    BaseClient.api_call ⟨"h", Option.none, Option.none, some "t", "sso"⟩
        "/ssoExtra" "GET" [] [] [] []
      = .ok ⟨"GET", "h/ssoExtra", [], [], [], []⟩ :=
  ⟨rfl, rfl⟩

/-- C2 (amended): `api_call` raises before dispatch exactly when the path
starts with `"/sso/"` while the flag is not `"sso"`, or the path does not
start with `"/sso"` (no trailing slash) while the flag is `"sso"`; the two
directions use these two different prefixes, so a path such as `"/ssoExtra"`
is dispatched in either mode. -/
theorem api_call_mode_guard (c : BaseClient) (apiMethod httpVerb : String)
    (files data params json : Dict) :
    raises (c.api_call apiMethod httpVerb files data params json) = true ↔
      (startswith apiMethod "/sso/" = true ∧ c.flag ≠ "sso") ∨
      (startswith apiMethod "/sso" = false ∧ c.flag = "sso") := by
  by_cases hf : c.flag = "sso" <;>
    cases h1 : startswith apiMethod "/sso/" <;>
      cases h2 : startswith apiMethod "/sso" <;>
        simp [BaseClient.api_call, raises, h1, h2, hf, bne]

/-- C7: client construction raises a configuration error (`KnowiException`)
exactly when the flag is neither `"mgmt"` nor `"sso"`, or the flag is
`"mgmt"` with a falsy (absent or empty) client id or secret, or the flag is
`"sso"` with a falsy customer token.  The error is raised synchronously in
`__init__`, before the client can be used. -/
theorem baseClient_init_config_errors (host : String) (cid cs tok : Option String)
    (flag : String) :
    raises (BaseClient.init host cid cs tok flag) = true ↔
      (flag ≠ "mgmt" ∧ flag ≠ "sso") ∨
      (flag = "mgmt" ∧ (truthyOptStr cid = false ∨ truthyOptStr cs = false)) ∨
      (flag = "sso" ∧ truthyOptStr tok = false) := by
  have hms : ("mgmt" : String) ≠ "sso" := by decide
  by_cases hm : flag = "mgmt"
  · subst hm
    cases hci : truthyOptStr cid <;> cases hcs : truthyOptStr cs <;>
      simp [BaseClient.init, raises, hci, hcs, hms]
  · by_cases hs : flag = "sso"
    · subst hs
      cases ht : truthyOptStr tok <;>
        simp [BaseClient.init, raises, ht, hm, Ne.symm hms]
    · have h1 : (flag == "mgmt") = false := by simp [hm]
      have h2 : (flag == "sso") = false := by simp [hs]
      simp [BaseClient.init, raises, h1, h2, hm, hs]

/-- C1: whenever `api_call` dispatches a request, the transmitted `data`
payload (when `data` is truthy) has every explicitly-`None`-valued key
removed while every key with a non-`None` value — including an explicit
empty list or empty string — is passed through unchanged; when `data` is
falsy the same holds of the `json` payload. -/
theorem api_call_strips_null_payload_keys
    (c : BaseClient) (apiMethod httpVerb : String) (files data params json : Dict)
    (req : Request)
    (hok : c.api_call apiMethod httpVerb files data params json = .ok req) :
    (data ≠ [] →
      (∀ k, (k, PyVal.none) ∉ req.data) ∧
      (∀ k v, v.isNone = false → ((k, v) ∈ req.data ↔ (k, v) ∈ data)) ∧
      req.json = json) ∧
    (data = [] → json ≠ [] →
      (∀ k, (k, PyVal.none) ∉ req.json) ∧
      (∀ k v, v.isNone = false → ((k, v) ∈ req.json ↔ (k, v) ∈ json)) ∧
      req.data = data) := by
  unfold BaseClient.api_call at hok
  split at hok
  · exact absurd hok (by simp)
  · split at hok
    · exact absurd hok (by simp)
    · cases hok
      constructor
      · intro hd
        have hde : data.isEmpty = false := by
          cases data with
          | nil => exact absurd rfl hd
          | cons a l => rfl
        constructor
        · intro k hmem
          simp only [hde] at hmem
          rcases (mem_cleanNullTerms data k PyVal.none).mp (by simpa using hmem) with ⟨_, hfalse⟩
          simp [PyVal.isNone] at hfalse
        constructor
        · intro k v hv
          simp only [hde]
          simpa using (mem_cleanNullTerms data k v).trans (by simp [hv])
        · simp [hde]
      · intro hd hj
        subst hd
        have hje : json.isEmpty = false := by
          cases json with
          | nil => exact absurd rfl hj
          | cons a l => rfl
        constructor
        · intro k hmem
          simp only [hje] at hmem
          rcases (mem_cleanNullTerms json k PyVal.none).mp (by simpa using hmem) with ⟨_, hfalse⟩
          simp [PyVal.isNone] at hfalse
        constructor
        · intro k v hv
          simp only [hje]
          simpa using (mem_cleanNullTerms json k v).trans (by simp [hv])
        · simp [hje]

/-- Witness for C1: a management-mode call whose `data` payload carries a
`None`-valued key and an empty-list-valued key. -/
theorem api_call_strips_null_payload_keys_witness :
    ("a", PyVal.none) ∉ ([("b", PyVal.list [])] : Dict) ∧
    (("b", PyVal.list []) ∈ ([("b", PyVal.list [])] : Dict) ↔
      ("b", PyVal.list []) ∈ ([("a", PyVal.none), ("b", PyVal.list [])] : Dict)) := by
  have h := api_call_strips_null_payload_keys
    ⟨"h", some "i", some "s", Option.none, "mgmt"⟩ "/x" "GET" []
    [("a", PyVal.none), ("b", PyVal.list [])] [] []
    ⟨"GET", "h/api/1.0/x", [("b", PyVal.list [])], [], [], []⟩ rfl
  obtain ⟨h1, -⟩ := h
  obtain ⟨hnone, hpass, -⟩ := h1 (by simp)
  exact ⟨hnone "a", hpass "b" (PyVal.list []) rfl⟩

lemma toNat_ofNat_valid (n : Nat) (h : n.isValidChar) : (Char.ofNat n).toNat = n := by
  rw [Char.ofNat, dif_pos h]
  simp [Char.ofNatAux, Char.toNat, UInt32.toNat]

lemma char_eq_of_toNat (c d : Char) (h : c.toNat = d.toNat) : c = d := by
  apply Char.ext
  exact UInt32.toNat.inj h

lemma toLower_eq_iff_ascii (c lo up : Char) (h1 : lo.toNat = up.toNat + 32)
    (h2 : 65 ≤ up.toNat) (h3 : up.toNat ≤ 90) :
    c.toLower = lo ↔ (c = lo ∨ c = up) := by
  constructor
  · intro h
    unfold Char.toLower at h
    by_cases hc : c.toNat ≥ 65 ∧ c.toNat ≤ 90
    · rw [if_pos hc] at h
      have hn : (Char.ofNat (c.toNat + 32)).toNat = lo.toNat := by rw [h]
      rw [toNat_ofNat_valid _ (by left; show c.toNat + 32 < 55296; omega)] at hn
      right
      exact char_eq_of_toNat c up (by omega)
    · rw [if_neg hc] at h
      exact Or.inl h
  · intro h
    rcases h with h | h
    · rw [h]
      unfold Char.toLower
      rw [if_neg (by omega)]
    · rw [h]
      unfold Char.toLower
      rw [if_pos (by omega), show up.toNat + 32 = lo.toNat from by omega]
      exact Char.ofNat_toNat lo

lemma toUpper_eq_iff_ascii (c lo up : Char) (h1 : lo.toNat = up.toNat + 32)
    (h2 : 65 ≤ up.toNat) (h3 : up.toNat ≤ 90) :
    c.toUpper = up ↔ (c = lo ∨ c = up) := by
  constructor
  · intro h
    unfold Char.toUpper at h
    by_cases hc : c.toNat ≥ 97 ∧ c.toNat ≤ 122
    · rw [if_pos hc] at h
      have hn : (Char.ofNat (c.toNat - 32)).toNat = up.toNat := by rw [h]
      rw [toNat_ofNat_valid _ (by left; show c.toNat - 32 < 55296; omega)] at hn
      left
      exact char_eq_of_toNat c lo (by omega)
    · rw [if_neg hc] at h
      exact Or.inr h
  · intro h
    rcases h with h | h
    · rw [h]
      unfold Char.toUpper
      rw [if_pos (by omega), show lo.toNat - 32 = up.toNat from by omega]
      exact Char.ofNat_toNat up
    · rw [h]
      unfold Char.toUpper
      rw [if_neg (by omega)]

lemma capitalize_eq_users_iff (t : String) :
    capitalize t = "Users" ↔ lowerStr t = "users" := by
  obtain ⟨l⟩ := t
  cases l with
  | nil => constructor <;> (intro h; exact absurd h (by decide))
  | cons c cs =>
    show (⟨c.toUpper :: cs.map Char.toLower⟩ : String) = "Users" ↔
      (⟨(c :: cs).map Char.toLower⟩ : String) = "users"
    rw [String.ext_iff, String.ext_iff]
    show c.toUpper :: cs.map Char.toLower = "Users".data ↔
      c.toLower :: cs.map Char.toLower = "users".data
    have hU : "Users".data = 'U' :: "sers".data := rfl
    have hu : "users".data = 'u' :: "sers".data := rfl
    rw [hU, hu, List.cons_eq_cons, List.cons_eq_cons,
      toUpper_eq_iff_ascii c 'u' 'U' (by decide) (by decide) (by decide),
      toLower_eq_iff_ascii c 'u' 'U' (by decide) (by decide) (by decide)]

lemma capitalize_eq_groups_iff (t : String) :
    capitalize t = "Groups" ↔ lowerStr t = "groups" := by
  obtain ⟨l⟩ := t
  cases l with
  | nil => constructor <;> (intro h; exact absurd h (by decide))
  | cons c cs =>
    show (⟨c.toUpper :: cs.map Char.toLower⟩ : String) = "Groups" ↔
      (⟨(c :: cs).map Char.toLower⟩ : String) = "groups"
    rw [String.ext_iff, String.ext_iff]
    show c.toUpper :: cs.map Char.toLower = "Groups".data ↔
      c.toLower :: cs.map Char.toLower = "groups".data
    have hU : "Groups".data = 'G' :: "roups".data := rfl
    have hu : "groups".data = 'g' :: "roups".data := rfl
    rw [hU, hu, List.cons_eq_cons, List.cons_eq_cons,
      toUpper_eq_iff_ascii c 'g' 'G' (by decide) (by decide) (by decide),
      toLower_eq_iff_ascii c 'g' 'G' (by decide) (by decide) (by decide)]

lemma dictHasKey_dictSet_ne (d : Dict) (k k' : String) (v : PyVal) (h : k' ≠ k) :
    dictHasKey (dictSet d k v) k' = dictHasKey d k' := by
  unfold dictHasKey
  rw [dictGet_dictSet_ne d k k' v h]

lemma operatorInChain_iff (v : Option PyVal) :
    operatorInChain v = true ↔
      ∃ op, v = some (PyVal.str op) ∧ (op ∈ OPERATOR_NAME ∨ op ∈ OPERATOR_VALUE) := by
  cases v with
  | none => simp [operatorInChain]
  | some w =>
    cases w with
    | str s =>
      simp only [operatorInChain]
      rw [show ((OPERATOR_NAME ++ OPERATOR_VALUE).contains s)
          = (OPERATOR_NAME ++ OPERATOR_VALUE).elem s from rfl,
        List.elem_iff, List.mem_append]
      constructor
      · intro h
        exact ⟨s, rfl, h⟩
      · rintro ⟨op, heq, h⟩
        have hs : s = op := by
          injection heq with h1
          injection h1
        exact hs ▸ h
    | none => simp [operatorInChain]
    | bool b => simp [operatorInChain]
    | int n => simp [operatorInChain]
    | list xs => simp [operatorInChain]
    | dict kvs => simp [operatorInChain]

lemma dictGet_coerceValues_operator (d : Dict) :
    dictGet (coerceValues d) "operator" = dictGet d "operator" := by
  unfold coerceValues
  split
  · rfl
  · exact dictGet_dictSet_ne d "values" "operator" _ (by decide)

lemma coerceValues_values (d : Dict) (v : PyVal) (hv : dictGet d "values" = some v)
    (hnl : v.isList = false) :
    dictGet (coerceValues d) "values" = some (.list [.str (pyStr v)]) := by
  unfold coerceValues
  rw [hv]
  cases v with
  | list xs => simp [PyVal.isList] at hnl
  | none => exact dictGet_dictSet_self d "values" _
  | bool b => exact dictGet_dictSet_self d "values" _
  | int n => exact dictGet_dictSet_self d "values" _
  | str s => exact dictGet_dictSet_self d "values" _
  | dict kvs => exact dictGet_dictSet_self d "values" _

lemma filterClause_fields_present (d : Dict)
    (hf : (CONTENT_FILTER_FIELDS.all fun f => dictHasKey d f) = true) :
    validateContentFilterClause (.dict d) =
      if operatorInChain (dictGet d "operator") then .ok (.dict (coerceValues d))
      else .error (.knowiException "invalid operator value in contentFilter") := by
  simp only [validateContentFilterClause, hf, if_true, dictGet_coerceValues_operator]
  cases h : operatorInChain (dictGet d "operator") <;> simp [h]

lemma filterClause_err_missing (d : Dict)
    (hmiss : dictHasKey d "fieldName" = false ∨ dictHasKey d "values" = false ∨
      dictHasKey d "operator" = false) :
    validateContentFilterClause (.dict d)
      = .error (.knowiException "missing/invalid contentFilter parameter") := by
  have hall : (CONTENT_FILTER_FIELDS.all fun f => dictHasKey d f) = false := by
    rcases hmiss with h | h | h <;> simp [CONTENT_FILTER_FIELDS, h]
  simp [validateContentFilterClause, hall]

lemma filterClause_ok_coerce (d : Dict) (v : PyVal) (out : PyVal)
    (hok : validateContentFilterClause (.dict d) = .ok out)
    (hv : dictGet d "values" = some v) (hnl : v.isList = false) :
    ∃ d', out = PyVal.dict d' ∧ dictGet d' "values" = some (.list [.str (pyStr v)]) := by
  by_cases hf : (CONTENT_FILTER_FIELDS.all fun f => dictHasKey d f) = true
  · rw [filterClause_fields_present d hf] at hok
    cases hop : operatorInChain (dictGet d "operator")
    · rw [hop] at hok
      simp at hok
    · rw [hop] at hok
      simp only [if_true] at hok
      cases hok
      exact ⟨coerceValues d, rfl, coerceValues_values d v hv hnl⟩
  · simp only [Bool.not_eq_true] at hf
    simp [validateContentFilterClause, hf] at hok

lemma filterList_err_kind (cs : List PyVal)
    (hdicts : ∀ i ∈ cs, ∃ d, i = PyVal.dict d) (e : PyError)
    (herr : validateContentFilterList cs = .error e) :
    ∃ m, e = .knowiException m := by
  induction cs with
  | nil => simp [validateContentFilterList] at herr
  | cons i rest ih =>
    simp only [validateContentFilterList] at herr
    cases hv : validateContentFilterClause i with
    | error e' =>
      rw [hv] at herr
      simp only [Bind.bind, Except.bind] at herr
      cases herr
      obtain ⟨d, rfl⟩ := hdicts i (by simp)
      by_cases hf : (CONTENT_FILTER_FIELDS.all fun f => dictHasKey d f) = true
      · rw [filterClause_fields_present d hf] at hv
        cases hop : operatorInChain (dictGet d "operator")
        · rw [hop] at hv
          simp only [Bool.false_eq_true, if_false] at hv
          cases hv
          exact ⟨_, rfl⟩
        · rw [hop] at hv
          simp at hv
      · have hall : (CONTENT_FILTER_FIELDS.all fun f => dictHasKey d f) = false :=
          Bool.not_eq_true _ ▸ hf
        simp only [validateContentFilterClause, hall, Bool.false_eq_true, if_false] at hv
        cases hv
        exact ⟨_, rfl⟩
    | ok i' =>
      rw [hv] at herr
      cases hr : validateContentFilterList rest with
      | error e' =>
        rw [hr] at herr
        simp only [Bind.bind, Except.bind] at herr
        cases herr
        exact ih (fun j hj => hdicts j (by simp [hj])) hr
      | ok rest' =>
        rw [hr] at herr
        simp [Bind.bind, Except.bind] at herr

/-- C3: for a non-empty batch of content-filter clauses (records of a dict
shape): if any clause lacks one of `fieldName`, `values` or `operator`, the
whole batch fails with the domain error `KnowiException`; and whenever
validation succeeds, every clause whose `values` entry was not a list has it
replaced by a one-element list holding the string form of the original
value. -/
theorem contentFilters_missing_fields_and_coercion
    (clauses : List PyVal) (hne : clauses ≠ [])
    (hdicts : ∀ i ∈ clauses, ∃ d, i = PyVal.dict d) :
    ((∃ i ∈ clauses, ∀ d, i = PyVal.dict d →
        dictHasKey d "fieldName" = false ∨ dictHasKey d "values" = false ∨
          dictHasKey d "operator" = false) →
      ∃ msg, validateContentFilters (.list clauses) = .error (.knowiException msg)) ∧
    (∀ out, validateContentFilters (.list clauses) = .ok (.list out) →
      out.length = clauses.length ∧
      ∀ p ∈ clauses.zip out, ∀ d v, p.1 = PyVal.dict d →
        dictGet d "values" = some v → v.isList = false →
        ∃ d', p.2 = PyVal.dict d' ∧
          dictGet d' "values" = some (.list [.str (pyStr v)])) := by
  have hred : validateContentFilters (.list clauses)
      = (validateContentFilterList clauses).map .list := by
    have : clauses.isEmpty = false := by
      cases clauses with
      | nil => exact absurd rfl hne
      | cons a l => rfl
    simp [validateContentFilters, pyTruthy, PyVal.isList, this]
  constructor
  · rintro ⟨i, hi, hbad⟩
    obtain ⟨d, rfl⟩ := hdicts i hi
    have hclause : raises (validateContentFilterClause (PyVal.dict d)) = true := by
      rw [filterClause_err_missing d (hbad d rfl)]
      rfl
    have hlist := filterList_err_of_mem clauses (PyVal.dict d) hi hclause
    rw [hred]
    cases hres : validateContentFilterList clauses with
    | error e =>
      obtain ⟨m, rfl⟩ := filterList_err_kind clauses hdicts e hres
      exact ⟨m, by simp [Except.map]⟩
    | ok o =>
      rw [hres] at hlist
      simp [raises] at hlist
  · intro out hout
    rw [hred] at hout
    cases hres : validateContentFilterList clauses with
    | error e =>
      rw [hres] at hout
      simp [Except.map] at hout
    | ok o =>
      rw [hres] at hout
      simp only [Except.map] at hout
      cases hout
      obtain ⟨hlen, hall⟩ := filterList_ok_spec clauses out hres
      refine ⟨hlen, ?_⟩
      intro p hp d v hpd hv hnl
      have := hall p hp
      rw [hpd] at this
      exact filterClause_ok_coerce d v p.2 this hv hnl

/-- Witness for C3: the missing-field implication applied to a one-clause
batch without `operator`, and the coercion conclusion applied to a clause
whose scalar `values = 3` is replaced by `["3"]`. -/
theorem contentFilters_missing_fields_and_coercion_witness :
    (∃ msg, validateContentFilters
        (.list [PyVal.dict [("fieldName", PyVal.str "f"), ("values", PyVal.int 3)]])
      = .error (.knowiException msg)) ∧
    (∃ d', (PyVal.dict [("fieldName", PyVal.str "f"),
        ("values", PyVal.list [PyVal.str "3"]), ("operator", PyVal.str "=")])
          = PyVal.dict d' ∧
      dictGet d' "values" = some (.list [.str (pyStr (PyVal.int 3))])) := by
  have hmiss := (contentFilters_missing_fields_and_coercion
    [PyVal.dict [("fieldName", PyVal.str "f"), ("values", PyVal.int 3)]]
    (by simp) (by simp)).1
  have hco := (contentFilters_missing_fields_and_coercion
    [PyVal.dict [("fieldName", PyVal.str "f"), ("values", PyVal.int 3),
      ("operator", PyVal.str "=")]]
    (by simp) (by simp)).2
  refine ⟨hmiss ⟨PyVal.dict [("fieldName", PyVal.str "f"), ("values", PyVal.int 3)],
    by simp, fun d hd => ?_⟩, ?_⟩
  · cases hd
    right
    right
    rfl
  · have h2 := hco [PyVal.dict [("fieldName", PyVal.str "f"),
      ("values", PyVal.list [PyVal.str "3"]), ("operator", PyVal.str "=")]] rfl
    have h3 := h2.2 (PyVal.dict [("fieldName", PyVal.str "f"), ("values", PyVal.int 3),
        ("operator", PyVal.str "=")],
      PyVal.dict [("fieldName", PyVal.str "f"), ("values", PyVal.list [PyVal.str "3"]),
        ("operator", PyVal.str "=")]) (by simp [List.zip]) _ (PyVal.int 3) rfl rfl rfl
    simpa using h3

/-- C4: for a clause carrying all three required fields, content-filter
validation passes exactly when the `operator` entry is a string belonging to
the fixed named set or the fixed symbolic set, compared case-sensitively by
string equality with no fuzzy matching; any other value (including any
non-string) raises. -/
theorem contentFilter_operator_closed_set (d : Dict)
    (hf : (CONTENT_FILTER_FIELDS.all fun f => dictHasKey d f) = true) :
    raises (validateContentFilters (.list [PyVal.dict d])) = false ↔
      ∃ op, dictGet d "operator" = some (PyVal.str op) ∧
        (op ∈ ["equals", "not equals", "greater than", "greater than or equals",
               "less than", "less than or equals", "contains", "does not contain"] ∨
         op ∈ ["=", "!=", ">", ">=", "<", "<=", "like", "not like"]) := by
  have hchar := filterClause_fields_present d hf
  cases hopc : operatorInChain (dictGet d "operator") with
  | true =>
    rw [hopc] at hchar
    simp only [if_pos] at hchar
    have hall : validateContentFilters (.list [PyVal.dict d])
        = .ok (.list [PyVal.dict (coerceValues d)]) := by
      simp [validateContentFilters, pyTruthy, PyVal.isList, validateContentFilterList,
        hchar, Bind.bind, Except.bind, Except.map]
    rw [hall]
    simp only [raises, true_iff]
    obtain ⟨op, hv, hmem⟩ := (operatorInChain_iff _).mp hopc
    exact ⟨op, hv, hmem⟩
  | false =>
    rw [hopc] at hchar
    simp only [Bool.false_eq_true, if_false] at hchar
    have hall : validateContentFilters (.list [PyVal.dict d])
        = .error (.knowiException "invalid operator value in contentFilter") := by
      simp [validateContentFilters, pyTruthy, PyVal.isList, validateContentFilterList,
        hchar, Bind.bind, Except.bind, Except.map]
    rw [hall]
    simp only [raises]
    constructor
    · intro h
      cases h
    · rintro ⟨op, hv, hmem⟩
      have : operatorInChain (dictGet d "operator") = true :=
        (operatorInChain_iff _).mpr ⟨op, hv, hmem⟩
      rw [hopc] at this
      cases this

/-- Witness for C4 at a well-formed clause with operator `"="`. -/
theorem contentFilter_operator_closed_set_witness :
    raises (validateContentFilters (.list [PyVal.dict
        [("fieldName", PyVal.str "f"), ("values", PyVal.list [PyVal.str "1"]),
         ("operator", PyVal.str "=")]])) = false ↔
      ∃ op, dictGet [("fieldName", PyVal.str "f"), ("values", PyVal.list [PyVal.str "1"]),
          ("operator", PyVal.str "=")] "operator" = some (PyVal.str op) ∧
        (op ∈ ["equals", "not equals", "greater than", "greater than or equals",
               "less than", "less than or equals", "contains", "does not contain"] ∨
         op ∈ ["=", "!=", ">", ">=", "<", "<=", "like", "not like"]) :=
  contentFilter_operator_closed_set _ rfl


lemma shareTarget_ok_type (d : Dict) (t : String) (ht : dictGet d "type" = some (.str t))
    (out : PyVal) (hok : validateShareTarget (.dict d) = .ok out) :
    ∃ e, out = PyVal.dict e ∧ dictGet e "type" = some (.str (capitalize t)) := by
  have hkey : dictHasKey d "type" = true := by simp [dictHasKey, ht]
  simp only [validateShareTarget, hkey, Bool.not_true, Bool.false_eq_true, if_false, ht] at hok
  split at hok
  · split at hok
    · simp at hok
    · split at hok
      · simp at hok
      · cases hok
        exact ⟨_, rfl, dictGet_dictSet_self d "type" _⟩
  · split at hok
    · split at hok
      · simp at hok
      · split at hok
        · simp at hok
        · cases hok
          exact ⟨_, rfl, dictGet_dictSet_self d "type" _⟩
    · simp at hok

lemma shareTarget_err_neither (d : Dict) (t : String)
    (ht : dictGet d "type" = some (.str t))
    (h1 : capitalize t ≠ "Users") (h2 : capitalize t ≠ "Groups") :
    validateShareTarget (.dict d)
      = .error (.valueError "Invalid share type. allowed values: (users, groups)") := by
  have hkey : dictHasKey d "type" = true := by simp [dictHasKey, ht]
  have hb1 : (capitalize t == "Users") = false := by simp [h1]
  have hb2 : (capitalize t == "Groups") = false := by simp [h2]
  simp [validateShareTarget, hkey, ht, hb1, hb2]

lemma shareTarget_err_users_missing (d : Dict) (t : String)
    (ht : dictGet d "type" = some (.str t)) (hcap : capitalize t = "Users")
    (hmiss : dictHasKey d "access_level" = false ∨ dictHasKey d "name" = false) :
    raises (validateShareTarget (.dict d)) = true := by
  have hkey : dictHasKey d "type" = true := by simp [dictHasKey, ht]
  have hb1 : (capitalize t == "Users") = true := by simp [hcap]
  have hall : (["access_level", "name"].all
      fun k => dictHasKey (dictSet d "type" (.str (capitalize t))) k) = false := by
    rcases hmiss with h | h
    · simp [List.all, dictHasKey_dictSet_ne d "type" "access_level" _ (by decide), h]
    · simp [List.all, dictHasKey_dictSet_ne d "type" "name" _ (by decide), h]
  simp [validateShareTarget, hkey, ht, hb1, hall, raises]

lemma shareTarget_err_groups_missing (d : Dict) (t : String)
    (ht : dictGet d "type" = some (.str t)) (hcap : capitalize t = "Groups")
    (hmiss : dictHasKey d "access_level" = false ∨ dictHasKey d "id" = false) :
    raises (validateShareTarget (.dict d)) = true := by
  have hkey : dictHasKey d "type" = true := by simp [dictHasKey, ht]
  have hb1 : (capitalize t == "Users") = false := by simp [hcap]
  have hb2 : (capitalize t == "Groups") = true := by simp [hcap]
  have hall : (["access_level", "id"].all
      fun k => dictHasKey (dictSet d "type" (.str (capitalize t))) k) = false := by
    rcases hmiss with h | h
    · simp [List.all, dictHasKey_dictSet_ne d "type" "access_level" _ (by decide), h]
    · simp [List.all, dictHasKey_dictSet_ne d "type" "id" _ (by decide), h]
  simp [validateShareTarget, hkey, ht, hb1, hb2, hall, raises]

lemma shareTarget_err_access (d : Dict) (t : String) (v : PyVal)
    (ht : dictGet d "type" = some (.str t))
    (hv : dictGet d "access_level" = some v)
    (h1 : pyEqInt v 1 = false) (h2 : pyEqInt v 2 = false) :
    raises (validateShareTarget (.dict d)) = true := by
  have hkey : dictHasKey d "type" = true := by simp [dictHasKey, ht]
  have hacc : inAccessLevel
      ((dictGet (dictSet d "type" (.str (capitalize t))) "access_level").getD .none)
        = false := by
    rw [dictGet_dictSet_ne d "type" "access_level" _ (by decide), hv]
    simp [inAccessLevel, h1, h2]
  by_cases hcap1 : capitalize t = "Users"
  · have hb1 : (capitalize t == "Users") = true := by simp [hcap1]
    cases hall : (["access_level", "name"].all
        fun k => dictHasKey (dictSet d "type" (.str (capitalize t))) k)
    · simp [validateShareTarget, hkey, ht, hb1, hall, raises]
    · simp [validateShareTarget, hkey, ht, hb1, hall, hacc, raises]
  · by_cases hcap2 : capitalize t = "Groups"
    · have hb1 : (capitalize t == "Users") = false := by simp [hcap1]
      have hb2 : (capitalize t == "Groups") = true := by simp [hcap2]
      cases hall : (["access_level", "id"].all
          fun k => dictHasKey (dictSet d "type" (.str (capitalize t))) k)
      · simp [validateShareTarget, hkey, ht, hb1, hb2, hall, raises]
      · simp [validateShareTarget, hkey, ht, hb1, hb2, hall, hacc, raises]
    · rw [shareTarget_err_neither d t ht hcap1 hcap2]
      rfl

lemma shareParams_list_eq (targets : List PyVal) (hne : targets ≠ []) :
    validateShareParams (some (.list targets)) Option.none
      = validateShareList targets := by
  have h : targets.isEmpty = false := by
    cases targets with
    | nil => exact absurd rfl hne
    | cons a l => rfl
  simp [validateShareParams, pyTruthy, h]

/-- C5: for any share-target record (a dict with a string `type`) inside a
non-empty share list handed to `validateShareParams`: a `type` that is a
case variant of `"users"`/`"groups"` is normalized to exactly
`"Users"`/`"Groups"` in the validated output; a `type` that is neither
variant makes the whole call raise; `"users"` records missing
`access_level` or `name` and `"groups"` records missing `access_level` or
`id` make it raise; and an `access_level` equal (by Python `==`) to neither
1 nor 2 makes it raise — all before any request is built. -/
theorem shareParams_record_checks
    (targets : List PyVal) (d : Dict) (t : String)
    (hmem : PyVal.dict d ∈ targets)
    (ht : dictGet d "type" = some (.str t)) :
    ((lowerStr t ≠ "users" ∧ lowerStr t ≠ "groups") →
      raises (validateShareParams (some (.list targets)) Option.none) = true) ∧
    (lowerStr t = "users" →
      (dictHasKey d "access_level" = false ∨ dictHasKey d "name" = false) →
      raises (validateShareParams (some (.list targets)) Option.none) = true) ∧
    (lowerStr t = "groups" →
      (dictHasKey d "access_level" = false ∨ dictHasKey d "id" = false) →
      raises (validateShareParams (some (.list targets)) Option.none) = true) ∧
    (∀ v, dictGet d "access_level" = some v → pyEqInt v 1 = false →
      pyEqInt v 2 = false →
      raises (validateShareParams (some (.list targets)) Option.none) = true) ∧
    (∀ out, validateShareParams (some (.list targets)) Option.none = .ok out →
      ∀ p ∈ targets.zip out, ∀ d' t', p.1 = PyVal.dict d' →
        dictGet d' "type" = some (.str t') →
        ((lowerStr t' = "users" →
           ∃ e, p.2 = PyVal.dict e ∧ dictGet e "type" = some (.str "Users")) ∧
         (lowerStr t' = "groups" →
           ∃ e, p.2 = PyVal.dict e ∧ dictGet e "type" = some (.str "Groups")))) := by
  have hne : targets ≠ [] := List.ne_nil_of_mem hmem
  have heq := shareParams_list_eq targets hne
  refine ⟨?_, ?_, ?_, ?_, ?_⟩
  · rintro ⟨hl1, hl2⟩
    rw [heq]
    refine shareList_err_of_mem targets _ hmem ?_
    rw [shareTarget_err_neither d t ht
      (fun hc => hl1 ((capitalize_eq_users_iff t).mp hc))
      (fun hc => hl2 ((capitalize_eq_groups_iff t).mp hc))]
    rfl
  · intro hl hmiss
    rw [heq]
    exact shareList_err_of_mem targets _ hmem
      (shareTarget_err_users_missing d t ht ((capitalize_eq_users_iff t).mpr hl) hmiss)
  · intro hl hmiss
    rw [heq]
    exact shareList_err_of_mem targets _ hmem
      (shareTarget_err_groups_missing d t ht ((capitalize_eq_groups_iff t).mpr hl) hmiss)
  · intro v hv h1 h2
    rw [heq]
    exact shareList_err_of_mem targets _ hmem (shareTarget_err_access d t v ht hv h1 h2)
  · intro out hout p hp d' t' hpd ht'
    rw [heq] at hout
    have hel := (shareList_ok_spec targets out hout).2 p hp
    rw [hpd] at hel
    constructor
    · intro hl'
      obtain ⟨e, he, hety⟩ := shareTarget_ok_type d' t' ht' p.2 hel
      exact ⟨e, he, by rwa [(capitalize_eq_users_iff t').mpr hl'] at hety⟩
    · intro hl'
      obtain ⟨e, he, hety⟩ := shareTarget_ok_type d' t' ht' p.2 hel
      exact ⟨e, he, by rwa [(capitalize_eq_groups_iff t').mpr hl'] at hety⟩

/-- Witness for C5 at the one-record list
`[{"type": "uSeRs", "access_level": 1, "name": "x"}]`. -/
theorem shareParams_record_checks_witness :
    ((lowerStr "uSeRs" ≠ "users" ∧ lowerStr "uSeRs" ≠ "groups") →
      raises (validateShareParams (some (.list [PyVal.dict
        [("type", PyVal.str "uSeRs"), ("access_level", PyVal.int 1),
         ("name", PyVal.str "x")]])) Option.none) = true) ∧
    (lowerStr "uSeRs" = "users" →
      (dictHasKey [("type", PyVal.str "uSeRs"), ("access_level", PyVal.int 1),
          ("name", PyVal.str "x")] "access_level" = false ∨
       dictHasKey [("type", PyVal.str "uSeRs"), ("access_level", PyVal.int 1),
          ("name", PyVal.str "x")] "name" = false) →
      raises (validateShareParams (some (.list [PyVal.dict
        [("type", PyVal.str "uSeRs"), ("access_level", PyVal.int 1),
         ("name", PyVal.str "x")]])) Option.none) = true) ∧
    (lowerStr "uSeRs" = "groups" →
      (dictHasKey [("type", PyVal.str "uSeRs"), ("access_level", PyVal.int 1),
          ("name", PyVal.str "x")] "access_level" = false ∨
       dictHasKey [("type", PyVal.str "uSeRs"), ("access_level", PyVal.int 1),
          ("name", PyVal.str "x")] "id" = false) →
      raises (validateShareParams (some (.list [PyVal.dict
        [("type", PyVal.str "uSeRs"), ("access_level", PyVal.int 1),
         ("name", PyVal.str "x")]])) Option.none) = true) ∧
    (∀ v, dictGet [("type", PyVal.str "uSeRs"), ("access_level", PyVal.int 1),
        ("name", PyVal.str "x")] "access_level" = some v →
      pyEqInt v 1 = false → pyEqInt v 2 = false →
      raises (validateShareParams (some (.list [PyVal.dict
        [("type", PyVal.str "uSeRs"), ("access_level", PyVal.int 1),
         ("name", PyVal.str "x")]])) Option.none) = true) ∧
    (∀ out, validateShareParams (some (.list [PyVal.dict
        [("type", PyVal.str "uSeRs"), ("access_level", PyVal.int 1),
         ("name", PyVal.str "x")]])) Option.none = .ok out →
      ∀ p ∈ [PyVal.dict [("type", PyVal.str "uSeRs"), ("access_level", PyVal.int 1),
          ("name", PyVal.str "x")]].zip out, ∀ d' t', p.1 = PyVal.dict d' →
        dictGet d' "type" = some (.str t') →
        ((lowerStr t' = "users" →
           ∃ e, p.2 = PyVal.dict e ∧ dictGet e "type" = some (.str "Users")) ∧
         (lowerStr t' = "groups" →
           ∃ e, p.2 = PyVal.dict e ∧ dictGet e "type" = some (.str "Groups")))) :=
  shareParams_record_checks
    [PyVal.dict [("type", PyVal.str "uSeRs"), ("access_level", PyVal.int 1),
      ("name", PyVal.str "x")]]
    [("type", PyVal.str "uSeRs"), ("access_level", PyVal.int 1), ("name", PyVal.str "x")]
    "uSeRs" (by simp) rfl

end Knowipy
